import Mathlib
/-!
Verification of the Form Layout & Dependency Engine
(`frappe.ui.form.Layout` / `Section` / `Column`, file `src/unnamed/part_001`).

The JavaScript source is shallowly embedded: JS values become `JVal`,
documents become association lists, the mutable per-field docfield state
becomes the `DF` structure, and each method becomes a pure Lean function
returning the updated state together with the list of `refresh()`
side-effects it emitted (identified by fieldname).
-/

namespace FormLayout

/-- A JavaScript value, as far as the layout engine inspects one. -/
inductive JVal where
  | null
  | undefined
  | bool (b : Bool)
  | num (n : Int)
  | str (s : String)
  | arr (xs : List JVal)

/-- A document: a mutable key→value record, read through `doc[fieldname]`. -/
def Doc := List (String × JVal)

/-- Lookup `doc[k]`: a missing key reads as JS `undefined`. -/
def Doc.get (d : Doc) (k : String) : JVal :=
  match List.find? (fun p => p.1 == k) d with
  | some p => p.2
  | none => .undefined

/-- JS truthiness of a value (objects, hence arrays, are always truthy). -/
def JVal.toBool : JVal → Bool
  | .null => false
  | .undefined => false
  | .bool b => b
  | .num n => n != 0
  | .str s => s != ""
  | .arr _ => true

/-- JS loose equality against `null` (`v == null`): true exactly for
`null` and `undefined`. -/
def JVal.isNullish : JVal → Bool
  | .null => true
  | .undefined => true
  | _ => false

/-- Does `v` equal the JS string `s` (`===` against a string literal)? -/
def JVal.eqStr : JVal → String → Bool
  | .str t, s => t == s
  | _, _ => false

/-- Whether `pat` is a leading segment of `l` (character lists). -/
def charsLead : List Char → List Char → Bool
  | [], _ => true
  | _ :: _, [] => false
  | a :: as, b :: bs => a == b && charsLead as bs

/-- Whether `pat` occurs somewhere inside `l` (character lists). -/
def charsSub : List Char → List Char → Bool
  | pat, [] => charsLead pat []
  | pat, c :: rest => charsLead pat (c :: rest) || charsSub pat rest

/-- The check `expression.substr(0, n) == pat`: `pat` leads the string. -/
def strLead (s pat : String) : Bool :=
  charsLead pat.data s.data

/-- The check `expression.includes(pat)`. -/
def strContains (s pat : String) : Bool :=
  charsSub pat.data s.data

/-- The slice `expression.substr(n)`: drop the first `n` characters. -/
def strFrom (s : String) (n : Nat) : String :=
  String.mk (s.data.drop n)

/-- A `depends_on`-class condition expression, as dispatched by
`evaluate_depends_on_value`: a literal boolean, a callable predicate, or a
string (whose shape — `eval:` / `fn:` / plain fieldname — the evaluator
sniffs itself). -/
inductive Expr where
  | boolLit (b : Bool)
  | func (f : Doc → JVal)
  | str (s : String)

/-- The evaluation context of one `Layout` instance: its bound document,
the owning form's document when a form exists (`this.frm` truthy iff
`frmDoc.isSome`), and the external collaborators the source calls into.

`uEval` — Modelled from the spec: `frappe.utils.eval` is not under `src/`;
§4.2/§9 describe it as a sandboxed evaluator of the expression text over the
read-only `doc`/`parent` bindings, which may fail (`Except.error`).

`trigger` — Modelled from the spec: `frm.script_manager.trigger` is not
under `src/`; §6 describes it as a synchronous boolean-returning handler
keyed by the remainder of an `fn:` string.

`getRead` — Modelled from the spec: `frm.get_perm(permlevel, "read")` is
not under `src/`; §4.2 consumes it only as a boolean read gate per
permission level. -/
structure EvalCtx where
  doc : Option Doc
  frmDoc : Option Doc
  uEval : String → Doc → Option Doc → Except Unit JVal
  trigger : String → JVal
  getRead : Nat → Bool
  is_dialog : Bool
  doctype : String

/-- The binding `var parent = this.frm ? this.frm.doc : this.doc || null;`. -/
def evalParent (ctx : EvalCtx) : Option Doc :=
  match ctx.frmDoc with
  | some fd => some fd
  | none => ctx.doc

/-- The check `parent && parent.istable` as a boolean. -/
def parentIstable (p : Option Doc) : Bool :=
  match p with
  | none => false
  | some d => (Doc.get d "istable").toBool

/-- Source `Layout.evaluate_depends_on_value(expression)` (part_001 lines 534-576).
Returns `none` when the layout has no bound document (the early
`if (!doc) return;`), otherwise the value the source leaves in `out`.

The `catch` branch of the `eval:` case calls `frappe.throw(...)`.
Modelled from the spec: `frappe.throw` is not under `src/`; §7 says the
failure is "reported to the user as a generic ... notice" and "not a
crash", so it is modelled as reporting without raising — control then
leaves the `try`/`catch` with `out` still at its initial `null`. -/
def evaluate_depends_on_value (ctx : EvalCtx) (e : Expr) : Option JVal :=
  match ctx.doc with
  | none => none
  | some doc =>
    let parent := evalParent ctx
    match e with
    | .boolLit b => some (.bool b)
    | .func f => some (f doc)
    | .str s =>
      if strLead s "eval:" then
        match ctx.uEval (strFrom s 5) doc parent with
        | .ok v =>
          if parentIstable parent && strContains s "is_submittable" then
            some (.bool true)
          else
            some v
        | .error _ => some .null
      else if strLead s "fn:" && ctx.frmDoc.isSome then
        some (ctx.trigger (strFrom s 3))
      else
        match Doc.get doc s with
        | .arr xs => some (.bool (!xs.isEmpty))
        | v => some (.bool v.toBool)

/-- Truthiness of an evaluation result (`undefined` when no document). -/
def truthy (o : Option JVal) : Bool :=
  match o with
  | none => false
  | some v => v.toBool

/-- The docfield state of one entry of `fields_list`: the static schema
plus the properties the engine mutates in place (`hidden_due_to_dependency`
via `refresh_dependency`, `reqd`/`read_only` via `set_df_property`). -/
structure DF where
  fieldname : String := ""
  fieldtype : String := "Data"
  label : String := ""
  hidden : Bool := false
  reqd : Bool := false
  read_only : Bool := false
  permlevel : Nat := 0
  depends_on : Option Expr := none
  mandatory_depends_on : Option Expr := none
  read_only_depends_on : Option Expr := none
  collapsible : Bool := false
  collapsible_depends_on : Option Expr := none
  hidden_due_to_dependency : Bool := false

/-- The two df properties driven by `set_dependant_property`. -/
inductive DProp where
  | reqd
  | read_only

def DF.getProp (f : DF) : DProp → Bool
  | .reqd => f.reqd
  | .read_only => f.read_only

def DF.setProp (f : DF) : DProp → Bool → DF
  | .reqd, v => { f with reqd := v }
  | .read_only, v => { f with read_only := v }

/-- The check `this.doc && this.doc.parent && this.doc.parentfield` — the bound
document is a child-table row. -/
def docIsChildRow (ctx : EvalCtx) : Bool :=
  match ctx.doc with
  | some d => (Doc.get d "parent").toBool && (Doc.get d "parentfield").toBool
  | none => false

/-- Source `Layout.set_dependant_property(condition, fieldname, property)`
(part_001 lines 512-533). Returns the updated field together with the
fieldnames whose controls were re-rendered.

In the child-row branch the source re-renders the control unconditionally
(`this.fields_dict[fieldname] && this.fields_dict[fieldname].refresh();`).
In the plain branch it calls `form_obj.set_df_property(fieldname, property,
value)` — Modelled from the spec: `set_df_property` is not under `src/`;
§5 requires the setter to be "a no-op / idempotent if the value is already
correct", so it updates the property and re-renders exactly when the value
changed. In both branches the net docfield state carries the evaluated
value. -/
def set_dependant_property (ctx : EvalCtx) (f : DF) (cond : Expr) (p : DProp) :
    DF × List String :=
  let v := truthy (evaluate_depends_on_value ctx cond)
  let form_obj := ctx.frmDoc.isSome || ctx.is_dialog || ctx.doctype == "Web Form"
  if form_obj then
    if docIsChildRow ctx then
      (f.setProp p v, [f.fieldname])
    else
      if f.getProp p == v then (f, []) else (f.setProp p v, [f.fieldname])
  else
    (f, [])

/-- The `depends_on` segment of one iteration of `refresh_dependency`
(part_001 lines 482-499): evaluate the guardian, flip
`hidden_due_to_dependency` and re-render the control only when the flag
actually changes. -/
def dep_visible_step (ctx : EvalCtx) (f : DF) : DF × List String :=
  match f.depends_on with
  | none => (f, [])
  | some e =>
    let g := truthy (evaluate_depends_on_value ctx e)
    if g then
      if f.hidden_due_to_dependency then
        ({ f with hidden_due_to_dependency := false }, [f.fieldname])
      else (f, [])
    else
      if !f.hidden_due_to_dependency then
        ({ f with hidden_due_to_dependency := true }, [f.fieldname])
      else (f, [])

/-- The `mandatory_depends_on` / `read_only_depends_on` segment of one
iteration of `refresh_dependency` (part_001 lines 501-507). -/
def dep_prop_step (ctx : EvalCtx) (p : DProp) (cond? : Option Expr) (f : DF) :
    DF × List String :=
  match cond? with
  | none => (f, [])
  | some e => set_dependant_property ctx f e p

/-- One full iteration of the `refresh_dependency` loop for one field. -/
def refresh_dep_field (ctx : EvalCtx) (f : DF) : DF × List String :=
  let r1 := dep_visible_step ctx f
  let r2 := dep_prop_step ctx .reqd r1.1.mandatory_depends_on r1.1
  let r3 := dep_prop_step ctx .read_only r2.1.read_only_depends_on r2.1
  (r3.1, r1.2 ++ r2.2 ++ r3.2)

/-- The dependants scan of `refresh_dependency` (part_001 lines 466-476):
does any field carry a dependency expression? -/
def hasDep (fields : List DF) : Bool :=
  fields.any fun f =>
    f.depends_on.isSome || f.mandatory_depends_on.isSome ||
      f.read_only_depends_on.isSome

/-- Source `Layout.refresh_dependency()` (part_001 lines 461-511): early exit when
no field has a dependency, otherwise process every field (the source loops
from the last index down to 0, so the emitted re-renders are collected in
reverse field order; each field's new state depends only on its own old
state). -/
def refresh_dependency (ctx : EvalCtx) (fields : List DF) :
    List DF × List String :=
  if hasDep fields then
    (fields.map (fun f => (refresh_dep_field ctx f).1),
     (fields.reverse.map (fun f => (refresh_dep_field ctx f).2)).foldr
       (· ++ ·) [])
  else
    (fields, [])

/-- Source `Section.refresh()` visibility rule (part_001 lines 642-655), the
formula §4.2 states for every node: hidden statically, or hidden by
dependency, or (when a form exists) the read permission gate fails. -/
def field_visible (ctx : EvalCtx) (f : DF) : Bool :=
  let hide := f.hidden || f.hidden_due_to_dependency
  let hide :=
    if !hide && ctx.frmDoc.isSome && !ctx.getRead f.permlevel then true
    else hide
  !hide

/-- One `frappe.ui.form.Section`: its section-break docfield, the
fieldnames of its direct controls (`fields_list`), and its collapse state
(`this.body.hasClass("hide")`). The head element exists iff the label is
truthy (`make_head` is only called when `this.df.label` is set). -/
structure Sec where
  df : DF
  fieldnames : List String := []
  collapsed : Bool := false

/-- The read `this.layout.doc[fieldname]` as done by `has_missing_mandatory`. -/
def ctxDocGet (ctx : EvalCtx) (fn : String) : JVal :=
  match ctx.doc with
  | some d => Doc.get d fn
  | none => .undefined

/-- Source `Section.has_missing_mandatory()` (part_001 lines 685-695): some direct
control's df has `reqd` set and `this.layout.doc[fieldname] == null`
(JS loose equality, i.e. the value is null or undefined). -/
def has_missing_mandatory (ctx : EvalCtx) (fields : List DF) (s : Sec) : Bool :=
  s.fieldnames.any fun fn =>
    match List.find? (fun g => g.fieldname == fn) fields with
    | some g => g.reqd && (ctxDocGet ctx fn).isNullish
    | none => false

/-- Source `Section.collapse(hide)` with an explicit argument (part_001 lines
656-671): a no-op when the section has no head (`!(this.head && this.body)`
— the head exists iff the label is truthy), otherwise sets the collapse
state to `hide`. -/
def Sec.collapseSet (s : Sec) (hide : Bool) : Sec :=
  if s.df.label != "" then { s with collapsed := hide } else s

/-- One iteration of `Layout.refresh_section_collapse()` (part_001 lines
300-320) for one section: only collapsible sections are touched; the
declarative state is `collapsible_depends_on` evaluating falsy (or absent),
and a missing mandatory direct field forces expansion. -/
def refresh_section_collapse_step (ctx : EvalCtx) (fields : List DF) (s : Sec) :
    Sec :=
  if s.df.collapsible then
    let collapse :=
      match s.df.collapsible_depends_on with
      | some e => !truthy (evaluate_depends_on_value ctx e)
      | none => true
    let collapse :=
      if collapse && has_missing_mandatory ctx fields s then false
      else collapse
    s.collapseSet collapse
  else s

/-- Source `Layout.refresh_section_collapse()` over the whole section list. -/
def refresh_section_collapse (ctx : EvalCtx) (fields : List DF)
    (sections : List Sec) : List Sec :=
  sections.map (refresh_section_collapse_step ctx fields)

/-- The engine-owned state a `refresh()` pass reads and writes: the
docfields of `fields_list` and the sections with their collapse state. -/
structure LState where
  fields : List DF
  sections : List Sec

/-- Source `Layout.refresh()` (part_001 lines 228-259) with the document already
bound in `ctx`: `attach_doc_and_docfields(true)` re-renders every control
(first event batch) and rebinds docfields, then `refresh_dependency()`
runs, then (`refresh_sections()` only toggles derived CSS classes) section
collapse is recomputed — the latter only when a form exists
(`if (this.frm)`). The active-element reselection at the end touches only
DOM focus. Returns the new state and the re-rendered fieldnames. -/
def Layout.refresh (ctx : EvalCtx) (st : LState) : LState × List String :=
  let ev0 := st.fields.map (fun f => f.fieldname)
  let r := refresh_dependency ctx st.fields
  let sections :=
    if ctx.frmDoc.isSome then refresh_section_collapse ctx r.1 st.sections
    else st.sections
  ({ fields := r.1, sections := sections }, ev0 ++ r.2)

/-- What `handle_tab` knows about one entry of `fields_list`: its
fieldname, its fieldtype, the control's computed write-status
(`disp_status`) and whether its wrapper is currently rendered visible
(`$wrapper.is(":visible")`). -/
structure TField where
  fieldname : String
  fieldtype : String
  disp_status : String
  rendered : Bool

/-- Modelled from the spec: `frappe.model.no_value_type` is not under
`src/`; it lists the fieldtypes that carry no document value (layout
breaks, HTML, tables, buttons, images, folds, headings). -/
def no_value_type : List String :=
  ["Section Break", "Column Break", "Tab Break", "HTML", "Table",
   "Table MultiSelect", "Button", "Image", "Fold", "Heading"]

/-- Source `Layout.is_visible(field)` (part_001 lines 441-443): the eligibility
predicate for focus — write status and currently rendered. -/
def is_visible (f : TField) : Bool :=
  f.disp_status == "Write" && f.rendered

/-- Where a tab keystroke sends the focus. -/
inductive FocusTarget where
  | field (fn : String)
  | tableOpen (fn : String)
  | primary
  | nothing
  deriving DecidableEq

/-- Source `Layout.set_focus(field)` (part_001 lines 444-457): a Table opens its
grid, anything else receives input focus. -/
def set_focus_target (f : TField) : FocusTarget :=
  if f.fieldtype == "Table" then .tableOpen f.fieldname else .field f.fieldname

/-- The scanning loop of `Layout.focus_on_next_field` (part_001 lines
419-440) over the remaining fields: the first eligible field wins — a
Table opens its first row, a no-value fieldtype is skipped, any other
field is focused. -/
def focus_next_go : List TField → Option FocusTarget
  | [] => none
  | f :: rest =>
    if is_visible f then
      if f.fieldtype == "Table" then some (.tableOpen f.fieldname)
      else if !no_value_type.contains f.fieldtype then some (.field f.fieldname)
      else focus_next_go rest
    else focus_next_go rest

/-- Source `Layout.focus_on_next_field(start_idx, fields)`: scan from
`start_idx + 1` to the end. -/
def focus_on_next_field (fields : List TField) (start : Nat) :
    Option FocusTarget :=
  focus_next_go (fields.drop (start + 1))

/-- The loop of `Layout.handle_tab` (part_001 lines 376-396) in the
top-level (non-grid) scope, recursing over the suffix at index `i` while
tracking `prev`, the last eligible field seen before the current one.
After the loop (part_001 lines 398-415): nothing focused and not
shift-tabbing sends focus to the primary action button. -/
def handle_tab_go (all : List TField) (fieldname : String) (shift : Bool) :
    List TField → Nat → Option TField → FocusTarget
  | [], _, _ => if !shift then .primary else .nothing
  | f :: rest, i, prev =>
    if f.fieldname == fieldname then
      if shift then
        match prev with
        | some p => set_focus_target p
        | none => .primary
      else
        match (if i < all.length - 1 then focus_on_next_field all i else none) with
        | some t => t
        | none =>
          handle_tab_go all fieldname shift rest (i + 1)
            (if is_visible f then some f else prev)
    else
      handle_tab_go all fieldname shift rest (i + 1)
        (if is_visible f then some f else prev)

/-- Source `Layout.handle_tab(doctype, fieldname, shift)` (part_001 lines 359-418)
for the top-level scope (`doctype == me.doctype`, no open grid row). -/
def handle_tab (fields : List TField) (fieldname : String) (shift : Bool) :
    FocusTarget :=
  handle_tab_go fields fieldname shift fields 0 none

/-- A column of the built layout tree: its column-break docfield (`none`
when the column was synthesized by `make_field`) and the controls whose
wrappers were appended under it. -/
structure BColumn where
  df : Option DF
  fields : List DF

/-- A section of the built layout tree: its section-break docfield (`none`
when synthesized) and its columns in creation order. -/
structure BSection where
  df : Option DF
  columns : List BColumn

/-- The builder state while `render` walks the descriptor list: the
sections that have stopped being current, the current section
(`this.section`, with the columns that have stopped being current), and
the current column (`this.column`). -/
structure RState where
  done : List BSection
  sec : Option (Option DF × List BColumn)
  col : Option (Option DF × List DF)

/-- Record the current column under the current section once it stops
being current (in the DOM this happened at creation time; the resulting
membership is the same because only the last column ever receives
fields). -/
def flushCol (st : RState) : RState :=
  match st.col, st.sec with
  | some c, some (sd, cols) =>
    { st with sec := some (sd, cols ++ [⟨c.1, c.2⟩]), col := none }
  | some _, none => { st with col := none }
  | none, _ => st

/-- The current section stops being current (a new section, a Fold, or the
end of the walk). -/
def closeSec (st : RState) : RState :=
  let st := flushCol st
  match st.sec with
  | some (sd, cols) =>
    { done := st.done ++ [⟨sd, cols⟩], sec := none, col := none }
  | none => st

/-- Source `Layout.make_section(df)` (part_001 lines 209-219): a new Section
becomes current and `this.column` is reset. -/
def openSec (df : Option DF) (st : RState) : RState :=
  let st := closeSec st
  { st with sec := some (df, []), col := none }

/-- Source `Layout.make_column(df)` (part_001 lines 221-226): fails when there is
no current section (the Column constructor dereferences
`this.section.body`), otherwise a new column becomes current. -/
def openCol (df : Option DF) (st : RState) : Option RState :=
  match st.sec with
  | none => none
  | some _ => some { flushCol st with col := some (df, []) }

/-- The guard `!this.section && this.make_section();` inside `make_field`. -/
def ensureSec (st : RState) : RState :=
  match st.sec with
  | none => openSec none st
  | some _ => st

/-- Source `Layout.make_field(df)` (part_001 lines 148-162): create the section
and column lazily (both synthesized, df-less) and append the control to
the current column. -/
def stepField (df : DF) (st : RState) : RState :=
  let st := ensureSec st
  match st.col with
  | none => { st with col := some ((none : Option DF), [df]) }
  | some (cd, fs) => { st with col := some (cd, fs ++ [df]) }

/-- One iteration of the `render` switch (part_001 lines 104-118): "Fold"
starts a new page (the current section stops being current), "Section
Break" and "Column Break" open groups, everything else is a field. -/
def buildStep (st : RState) (df : DF) : Option RState :=
  if df.fieldtype == "Fold" then some (closeSec st)
  else if df.fieldtype == "Section Break" then some (openSec (some df) st)
  else if df.fieldtype == "Column Break" then openCol (some df) st
  else some (stepField df st)

/-- The descriptor walk of `render`. -/
def buildGo : RState → List DF → Option RState
  | st, [] => some st
  | st, df :: rest =>
    match buildStep st df with
    | some st' => buildGo st' rest
    | none => none

/-- Source `Layout.no_opening_section()` (part_001 lines 122-124):
`(this.fields[0] && this.fields[0].fieldtype != "Section Break") ||
!this.fields.length`. -/
def no_opening_section (fields : List DF) : Bool :=
  match fields with
  | [] => true
  | f :: _ => f.fieldtype != "Section Break"

/-- The builder state `render` starts from (part_001 lines 94-103):
no current section or column, with a synthesized opening section made
first when `no_opening_section()` holds. -/
def initState (fields : List DF) : RState :=
  let st0 : RState := { done := [], sec := none, col := none }
  if no_opening_section fields then openSec none st0 else st0

/-- Source `Layout.render(fields)` (part_001 lines 90-120): the resulting section
list (in creation order), or `none` when the walk crashes (a Column Break
with no current section). -/
def Layout.render (fields : List DF) : Option (List BSection) :=
  (buildGo (initState fields) fields).map fun st => (closeSec st).done

/-- Short name for the "a form object exists" condition of
`set_dependant_property`. -/
def formObj (ctx : EvalCtx) : Bool :=
  ctx.frmDoc.isSome || ctx.is_dialog || ctx.doctype == "Web Form"

/-- The net docfield state map of one `refresh_dependency` loop iteration,
as a plain function of the old state. -/
def dep_apply (ctx : EvalCtx) (f : DF) : DF :=
  let f :=
    match f.depends_on with
    | none => f
    | some e =>
      { f with hidden_due_to_dependency :=
          !truthy (evaluate_depends_on_value ctx e) }
  let f :=
    match f.mandatory_depends_on with
    | none => f
    | some e =>
      if formObj ctx then
        f.setProp .reqd (truthy (evaluate_depends_on_value ctx e))
      else f
  match f.read_only_depends_on with
  | none => f
  | some e =>
    if formObj ctx then
      f.setProp .read_only (truthy (evaluate_depends_on_value ctx e))
    else f

def ctx2 : EvalCtx :=
  { doc := some []
    frmDoc := some []
    uEval := fun _ _ _ => .error ()
    trigger := fun _ => .undefined
    getRead := fun _ => true
    is_dialog := false
    doctype := "T" }

def sec2 : Sec :=
  { df := { fieldname := "sec2", fieldtype := "Section Break",
            label := "More Info", collapsible := true,
            collapsible_depends_on := some (.boolLit true) }
    fieldnames := []
    collapsed := true }

def st2 : LState := { fields := [], sections := [sec2] }

def ctx1 : EvalCtx :=
  { doc := some []
    frmDoc := none
    uEval := fun _ _ _ => .error ()
    trigger := fun _ => .undefined
    getRead := fun _ => true
    is_dialog := false
    doctype := "T" }

def f1 : DF := { fieldname := "f1", depends_on := some (.str "eval:boom") }

def ctx9 : EvalCtx :=
  { doc := some [("parent", .str "PARENT-0001"), ("parentfield", .str "items")]
    frmDoc := some []
    uEval := fun _ _ _ => .error ()
    trigger := fun _ => .undefined
    getRead := fun _ => true
    is_dialog := false
    doctype := "T" }

def f9 : DF :=
  { fieldname := "f9", reqd := true,
    mandatory_depends_on := some (.boolLit true) }

def f9w : DF := { fieldname := "f9w", depends_on := some (.boolLit false) }

def ctx4 : EvalCtx :=
  { doc := some [("status", .str "Open")]
    frmDoc := some []
    uEval := fun s d _ =>
      if s == " doc.status == 'Open'" then
        .ok (.bool ((Doc.get d "status").eqStr "Open"))
      else .error ()
    trigger := fun _ => .undefined
    getRead := fun _ => true
    is_dialog := false
    doctype := "T" }

def f4 : DF :=
  { fieldname := "f4",
    depends_on := some (.str "eval: doc.status == 'Open'") }

def ctx5 : EvalCtx :=
  { doc := some []
    frmDoc := some []
    uEval := fun _ _ _ => .error ()
    trigger := fun _ => .undefined
    getRead := fun _ => true
    is_dialog := false
    doctype := "T" }

def sec5 : Sec :=
  { df := { fieldname := "sec5", fieldtype := "Section Break",
            collapsible := true }
    fieldnames := []
    collapsed := false }

def sec5w : Sec :=
  { df := { fieldname := "sec5w", fieldtype := "Section Break",
            label := "Details", collapsible := true }
    fieldnames := []
    collapsed := false }

def tabA : TField := ⟨"A", "Data", "Write", true⟩

def tabB : TField := ⟨"B", "Data", "Write", false⟩

def tabC : TField := ⟨"C", "Data", "Write", true⟩

def tabFields : List TField := [tabA, tabB, tabC]

def ctx7 : EvalCtx :=
  { doc := some [("status", .str "Open")]
    frmDoc := none
    uEval := fun s d _ =>
      if s == " doc.status == 'Open'" then
        .ok (.bool ((Doc.get d "status").eqStr "Open"))
      else .error ()
    trigger := fun _ => .bool true
    getRead := fun _ => true
    is_dialog := false
    doctype := "T" }

def doc8 : Doc :=
  [("istable", .bool true), ("is_submittable", .bool false)]

def ctx8 : EvalCtx :=
  { doc := some doc8
    frmDoc := some [("istable", .bool false)]
    uEval := fun _ d _ => .ok (.bool (Doc.get d "is_submittable").toBool)
    trigger := fun _ => .undefined
    getRead := fun _ => true
    is_dialog := false
    doctype := "T" }

def ctx8w : EvalCtx :=
  { doc := some doc8
    frmDoc := some [("istable", .bool true)]
    uEval := fun _ d _ => .ok (.bool (Doc.get d "is_submittable").toBool)
    trigger := fun _ => .undefined
    getRead := fun _ => true
    is_dialog := false
    doctype := "T" }

/-- The docfield of the first section created so far (the head of the
eventual section list), if any section has been created. -/
def firstDf (st : RState) : Option (Option DF) :=
  match st.done with
  | s :: _ => some s.df
  | [] =>
    match st.sec with
    | some sc => some sc.1
    | none => none

/-- Only the first column of a section can be the synthesized one, and a
synthesized column always holds at least one control. -/
def ColOk (cols : List BColumn) : Prop :=
  ∀ c ∈ cols, c.df = none → cols.head? = some c ∧ c.fields ≠ []

/-- The current section has recorded no columns yet. -/
def SecColsEmpty (st : RState) : Prop :=
  ∀ sd cols, st.sec = some (sd, cols) → cols = []

/-- The builder invariant between steps: every recorded section satisfies
`ColOk`; the current section's recorded columns satisfy `ColOk`; an open
synthesized column is non-empty and is the current section's first column;
and when no column is open, the current section has no recorded columns
yet. -/
def InvSt (st : RState) : Prop :=
  (∀ s ∈ st.done, ColOk s.columns) ∧
  (∀ sd cols, st.sec = some (sd, cols) → ColOk cols) ∧
  (∀ cd fs, st.col = some (cd, fs) → cd = none → fs ≠ [] ∧ SecColsEmpty st) ∧
  (st.col = none → SecColsEmpty st)

def dfA : DF := { fieldname := "A" }

def dfSB : DF := { fieldname := "sb1", fieldtype := "Section Break" }

def dfB : DF := { fieldname := "B" }

def dfCB : DF := { fieldname := "cb1", fieldtype := "Column Break" }

def dfC : DF := { fieldname := "C" }

def exFields : List DF := [dfA, dfSB, dfB, dfCB, dfC]

def exOut : List BSection :=
  [⟨none, [⟨none, [dfA]⟩]⟩,
   ⟨some dfSB, [⟨none, [dfB]⟩, ⟨some dfCB, [dfC]⟩]⟩]

theorem DF.setProp_getProp (f : DF) (p : DProp) : f.setProp p (f.getProp p) = f := by
  cases p <;> rfl

theorem DF.setProp_hdd (f : DF) (p : DProp) (v : Bool) :
    (f.setProp p v).hidden_due_to_dependency = f.hidden_due_to_dependency := by
  cases p <;> rfl

theorem sdp_fst (ctx : EvalCtx) (f : DF) (e : Expr) (p : DProp) :
    (set_dependant_property ctx f e p).1 =
      (if ctx.frmDoc.isSome || ctx.is_dialog || ctx.doctype == "Web Form" then
        f.setProp p (truthy (evaluate_depends_on_value ctx e))
      else f) := by
  by_cases hfo : (ctx.frmDoc.isSome || ctx.is_dialog || ctx.doctype == "Web Form") = true
  · by_cases hch : docIsChildRow ctx = true
    · simp [set_dependant_property, hfo, hch]
    · by_cases heq :
        (f.getProp p == truthy (evaluate_depends_on_value ctx e)) = true
      · simp [set_dependant_property, hfo, hch, heq]
        have hv := beq_iff_eq.mp heq
        rw [← hv, DF.setProp_getProp]
      · simp [set_dependant_property, hfo, hch, heq]
  · simp [set_dependant_property, hfo]

theorem dvs_fst (ctx : EvalCtx) (f : DF) :
    (dep_visible_step ctx f).1 =
      (match f.depends_on with
      | none => f
      | some e =>
        { f with hidden_due_to_dependency :=
            !truthy (evaluate_depends_on_value ctx e) }) := by
  obtain ⟨fn, ft, lb, hid, rq, ro, pl, dep, mdep, rdep, col, cdep, hdd⟩ := f
  cases dep with
  | none => rfl
  | some e =>
    simp only [dep_visible_step]
    cases hg : truthy (evaluate_depends_on_value ctx e) <;> cases hdd <;> simp [hg]

theorem dpp_fst (ctx : EvalCtx) (p : DProp) (c : Option Expr) (f : DF) :
    (dep_prop_step ctx p c f).1 =
      (match c with
      | none => f
      | some e =>
        if formObj ctx then
          f.setProp p (truthy (evaluate_depends_on_value ctx e))
        else f) := by
  cases c with
  | none => rfl
  | some e => simpa [dep_prop_step, formObj] using sdp_fst ctx f e p

theorem rdf_fst (ctx : EvalCtx) (f : DF) :
    (refresh_dep_field ctx f).1 = dep_apply ctx f := by
  show (dep_prop_step ctx .read_only _ _).1 = _
  rw [dpp_fst, dpp_fst, dvs_fst]
  rfl

theorem dep_apply_idem (ctx : EvalCtx) (f : DF) :
    dep_apply ctx (dep_apply ctx f) = dep_apply ctx f := by
  obtain ⟨fn, ft, lb, hid, rq, ro, pl, dep, mdep, rdep, col, cdep, hdd⟩ := f
  by_cases hfo : formObj ctx = true <;>
    cases dep <;> cases mdep <;> cases rdep <;>
      simp [dep_apply, DF.setProp, hfo]

theorem dep_apply_exprs (ctx : EvalCtx) (f : DF) :
    (dep_apply ctx f).depends_on = f.depends_on ∧
    (dep_apply ctx f).mandatory_depends_on = f.mandatory_depends_on ∧
    (dep_apply ctx f).read_only_depends_on = f.read_only_depends_on := by
  obtain ⟨fn, ft, lb, hid, rq, ro, pl, dep, mdep, rdep, col, cdep, hdd⟩ := f
  by_cases hfo : formObj ctx = true <;>
    cases dep <;> cases mdep <;> cases rdep <;>
      simp [dep_apply, DF.setProp, hfo]

theorem refresh_dependency_fst (ctx : EvalCtx) (fields : List DF) :
    (refresh_dependency ctx fields).1 =
      (if hasDep fields then fields.map (dep_apply ctx) else fields) := by
  unfold refresh_dependency
  split
  · simp only [List.map_inj_left]
    intro f _
    exact rdf_fst ctx f
  · rfl

theorem hasDep_map_dep_apply (ctx : EvalCtx) (fields : List DF) :
    hasDep (fields.map (dep_apply ctx)) = hasDep fields := by
  induction fields with
  | nil => rfl
  | cons f rest ih =>
    simp only [List.map_cons, hasDep, List.any_cons] at *
    rw [ih]
    obtain ⟨h1, h2, h3⟩ := dep_apply_exprs ctx f
    rw [h1, h2, h3]

theorem refresh_dependency_idem (ctx : EvalCtx) (fields : List DF) :
    (refresh_dependency ctx (refresh_dependency ctx fields).1).1 =
      (refresh_dependency ctx fields).1 := by
  rw [refresh_dependency_fst, refresh_dependency_fst]
  by_cases h : hasDep fields = true
  · simp only [h, if_true, hasDep_map_dep_apply, List.map_map]
    simp only [List.map_inj_left]
    intro f _
    exact dep_apply_idem ctx f
  · simp [h]

theorem rscs_idem (ctx : EvalCtx) (fields : List DF) (s : Sec) :
    refresh_section_collapse_step ctx fields
        (refresh_section_collapse_step ctx fields s) =
      refresh_section_collapse_step ctx fields s := by
  obtain ⟨df, fns, coll⟩ := s
  by_cases hc : df.collapsible = true
  · by_cases hl : (df.label != "") = true <;>
      simp [refresh_section_collapse_step, Sec.collapseSet, hc, hl,
        has_missing_mandatory]
  · simp [refresh_section_collapse_step, hc]

theorem refresh_section_collapse_idem (ctx : EvalCtx) (fields : List DF)
    (sections : List Sec) :
    refresh_section_collapse ctx fields
        (refresh_section_collapse ctx fields sections) =
      refresh_section_collapse ctx fields sections := by
  unfold refresh_section_collapse
  rw [List.map_map]
  simp only [List.map_inj_left]
  intro s _
  exact rscs_idem ctx fields s

/-- C2 (amended): a `refresh()` pass is idempotent on the engine state —
the second of two consecutive passes with an unchanged document leaves
every field's docfield state (hence its visible/required/read-only tuple)
and every section's collapse state exactly as the first pass left them. -/
theorem C2_refresh_idempotent (ctx : EvalCtx) (st : LState) :
    (Layout.refresh ctx (Layout.refresh ctx st).1).1 =
      (Layout.refresh ctx st).1 := by
  unfold Layout.refresh
  simp only [refresh_dependency_idem]
  by_cases hf : ctx.frmDoc.isSome = true
  · simp [hf, refresh_section_collapse_idem, refresh_dependency_idem]
  · simp [hf, refresh_dependency_idem]

/-- C2 counterexample: a collapsible section whose
`collapsible_depends_on` evaluates true, manually collapsed by the user
(`collapsed = true`), is re-expanded by a `refresh()` over unchanged
data — the claim that a manually collapsed section stays collapsed across
refreshes fails. -/
theorem C2_counterexample :
    (st2.sections.map fun s => s.collapsed) = [true] ∧
    ((Layout.refresh ctx2 st2).1.sections.map fun s => s.collapsed) =
      [false] := ⟨rfl, rfl⟩

/-- C1 counterexample: a field whose `eval:` guardian throws during
evaluation does not keep its prior (visible) state — the `catch` leaves
`out` at `null`, which the dependency loop treats as falsy, so
`hidden_due_to_dependency` flips from `false` to `true` and the control is
re-rendered hidden. -/
theorem C1_counterexample :
    f1.hidden_due_to_dependency = false ∧
    ((refresh_dependency ctx1 [f1]).1.map
      fun g => g.hidden_due_to_dependency) = [true] ∧
    (refresh_dependency ctx1 [f1]).2 = ["f1"] := ⟨rfl, rfl, rfl⟩

/-- C1 (amended): when the `eval:` engine fails on a guardian expression,
`evaluate_depends_on_value` yields `null` (the reported error does not
escape, per the spec's model of the error reporter), and the dependency
loop therefore hides the field — regardless of its prior state — instead
of keeping the prior outcome. -/
theorem C1_eval_error_hides (ctx : EvalCtx) (d : Doc) (f : DF) (s : String)
    (hdoc : ctx.doc = some d)
    (hdep : f.depends_on = some (.str s))
    (hpre : strLead s "eval:" = true)
    (herr : ctx.uEval (strFrom s 5) d (evalParent ctx) = .error ()) :
    evaluate_depends_on_value ctx (.str s) = some .null ∧
    (refresh_dep_field ctx f).1.hidden_due_to_dependency = true := by
  have he : evaluate_depends_on_value ctx (.str s) = some .null := by
    simp [evaluate_depends_on_value, hdoc, hpre, herr]
  refine ⟨he, ?_⟩
  rw [rdf_fst]
  obtain ⟨fn, ft, lb, hid, rq, ro, pl, dep, mdep, rdep, col, cdep, hdd⟩ := f
  simp only at hdep
  subst hdep
  by_cases hfo : formObj ctx = true <;>
    cases mdep <;> cases rdep <;>
      simp [dep_apply, DF.setProp, hfo, he, truthy, JVal.toBool]

theorem C1_eval_error_hides_witness :
    evaluate_depends_on_value ctx1 (.str "eval:boom") = some .null ∧
    (refresh_dep_field ctx1 f1).1.hidden_due_to_dependency = true :=
  C1_eval_error_hides ctx1 [] f1 "eval:boom" rfl rfl rfl rfl

/-- C9 counterexample: in a child-table-row layout a field with
`mandatory_depends_on` is re-rendered on every dependency pass even when
none of its computed outcomes changed — the emitted refresh list is
non-empty while the state tuple is identical. -/
theorem C9_counterexample :
    ((refresh_dependency ctx9 [f9]).1.map
      fun g => (g.hidden_due_to_dependency, g.reqd, g.read_only)) =
      [(f9.hidden_due_to_dependency, f9.reqd, f9.read_only)] ∧
    (refresh_dependency ctx9 [f9]).2 = ["f9"] := ⟨rfl, rfl⟩

/-- C9 (amended): for the `depends_on` path the claim holds — the
re-render side-effect of a field carrying only `depends_on` is emitted
exactly when its `hidden_due_to_dependency` outcome changed, and a field
with no dependency expression at all is left untouched with no effect. -/
theorem C9_dependency_refresh_effects (ctx : EvalCtx) (f : DF)
    (hm : f.mandatory_depends_on = none)
    (hr : f.read_only_depends_on = none) :
    (refresh_dep_field ctx f).2 =
      (if (refresh_dep_field ctx f).1.hidden_due_to_dependency =
          f.hidden_due_to_dependency then [] else [f.fieldname]) ∧
    (f.depends_on = none → refresh_dep_field ctx f = (f, [])) := by
  obtain ⟨fn, ft, lb, hid, rq, ro, pl, dep, mdep, rdep, col, cdep, hdd⟩ := f
  simp only at hm hr
  subst hm; subst hr
  cases dep with
  | none =>
    exact ⟨by simp [refresh_dep_field, dep_visible_step, dep_prop_step],
      fun _ => rfl⟩
  | some e =>
    refine ⟨?_, by simp⟩
    cases hg : truthy (evaluate_depends_on_value ctx e) <;> cases hdd <;>
      simp [refresh_dep_field, dep_visible_step, dep_prop_step, hg]

theorem C9_dependency_refresh_effects_witness :
    ((refresh_dep_field ctx9 f9w).2 =
      (if (refresh_dep_field ctx9 f9w).1.hidden_due_to_dependency =
          f9w.hidden_due_to_dependency then [] else [f9w.fieldname])) ∧
    (f9w.depends_on = none → refresh_dep_field ctx9 f9w = (f9w, [])) :=
  C9_dependency_refresh_effects ctx9 f9w rfl rfl

theorem field_visible_eq (ctx : EvalCtx) (g : DF) :
    field_visible ctx g =
      (!g.hidden && !g.hidden_due_to_dependency &&
        !(ctx.frmDoc.isSome && !ctx.getRead g.permlevel)) := by
  unfold field_visible
  cases hh : g.hidden <;> cases hd : g.hidden_due_to_dependency <;>
    cases hf : ctx.frmDoc.isSome <;>
      cases hr : ctx.getRead g.permlevel <;> simp [hh, hd, hf, hr]

theorem dep_apply_hdd (ctx : EvalCtx) (f : DF) :
    (dep_apply ctx f).hidden_due_to_dependency =
      (match f.depends_on with
       | none => f.hidden_due_to_dependency
       | some e => !truthy (evaluate_depends_on_value ctx e)) := by
  obtain ⟨fn, ft, lb, hid, rq, ro, pl, dep, mdep, rdep, col, cdep, hdd⟩ := f
  by_cases hfo : formObj ctx = true <;>
    cases dep <;> cases mdep <;> cases rdep <;>
      simp [dep_apply, DF.setProp, hfo]

theorem dep_apply_statics (ctx : EvalCtx) (f : DF) :
    (dep_apply ctx f).hidden = f.hidden ∧
    (dep_apply ctx f).permlevel = f.permlevel := by
  obtain ⟨fn, ft, lb, hid, rq, ro, pl, dep, mdep, rdep, col, cdep, hdd⟩ := f
  by_cases hfo : formObj ctx = true <;>
    cases dep <;> cases mdep <;> cases rdep <;>
      simp [dep_apply, DF.setProp, hfo]

/-- C4: after a dependency pass, a field carrying `depends_on` is visible
iff the expression evaluates truthy (and the field is not statically
hidden and the read-permission gate passes); a field without `depends_on`
never has `hidden_due_to_dependency` changed by the pass. -/
theorem C4_dependency_visibility (ctx : EvalCtx) (fields : List DF) (i : Nat)
    (f : DF) (hget : fields[i]? = some f) (hdep : hasDep fields = true) :
    (refresh_dependency ctx fields).1[i]? =
      some (refresh_dep_field ctx f).1 ∧
    (∀ e, f.depends_on = some e →
      field_visible ctx (refresh_dep_field ctx f).1 =
        (truthy (evaluate_depends_on_value ctx e) && !f.hidden &&
          !(ctx.frmDoc.isSome && !ctx.getRead f.permlevel))) ∧
    (f.depends_on = none →
      (refresh_dep_field ctx f).1.hidden_due_to_dependency =
        f.hidden_due_to_dependency) := by
  refine ⟨?_, ?_, ?_⟩
  · rw [refresh_dependency_fst, if_pos hdep, List.getElem?_map, hget]
    simp [rdf_fst]
  · intro e he
    rw [rdf_fst, field_visible_eq, dep_apply_hdd,
      (dep_apply_statics ctx f).1, (dep_apply_statics ctx f).2, he]
    cases ht : truthy (evaluate_depends_on_value ctx e) <;>
      cases hh : f.hidden <;>
        simp [ht, hh]
  · intro hn
    rw [rdf_fst, dep_apply_hdd, hn]

theorem C4_dependency_visibility_witness :
    (refresh_dependency ctx4 [f4]).1[0]? =
      some (refresh_dep_field ctx4 f4).1 ∧
    (∀ e, f4.depends_on = some e →
      field_visible ctx4 (refresh_dep_field ctx4 f4).1 =
        (truthy (evaluate_depends_on_value ctx4 e) && !f4.hidden &&
          !(ctx4.frmDoc.isSome && !ctx4.getRead f4.permlevel))) ∧
    (f4.depends_on = none →
      (refresh_dep_field ctx4 f4).1.hidden_due_to_dependency =
        f4.hidden_due_to_dependency) :=
  C4_dependency_visibility ctx4 [f4] 0 f4 rfl rfl

/-- C5 counterexample: a collapsible section with no label has no head
element, so `Section.collapse` is a no-op on it — after the collapse
recomputation it reports `collapsed = false` even though its declarative
state (no `collapsible_depends_on`, no missing mandatory field) demands
`collapsed = true`. -/
theorem C5_counterexample :
    sec5.df.collapsible = true ∧
    sec5.df.collapsible_depends_on = none ∧
    has_missing_mandatory ctx5 [] sec5 = false ∧
    (refresh_section_collapse_step ctx5 [] sec5).collapsed = false :=
  ⟨rfl, rfl, rfl, rfl⟩

/-- C5 (amended): for a collapsible section with a head (non-empty label),
the recomputation makes it collapsed iff `collapsible_depends_on` (when
present) evaluates falsy and no direct required field is missing, and a
missing mandatory field always forces `collapsed = false`. -/
theorem C5_collapse_recompute (ctx : EvalCtx) (fields : List DF) (s : Sec)
    (hc : s.df.collapsible = true) (hl : (s.df.label != "") = true) :
    ((refresh_section_collapse_step ctx fields s).collapsed = true ↔
      ((∀ e, s.df.collapsible_depends_on = some e →
        truthy (evaluate_depends_on_value ctx e) = false) ∧
        has_missing_mandatory ctx fields s = false)) ∧
    (has_missing_mandatory ctx fields s = true →
      (refresh_section_collapse_step ctx fields s).collapsed = false) := by
  obtain ⟨df, fns, coll⟩ := s
  simp only at hc hl
  cases hcd : df.collapsible_depends_on with
  | none =>
    cases hm : has_missing_mandatory ctx fields ⟨df, fns, coll⟩ <;>
      simp [refresh_section_collapse_step, Sec.collapseSet, hc, hl, hcd, hm]
  | some e =>
    cases ht : truthy (evaluate_depends_on_value ctx e) <;>
      cases hm : has_missing_mandatory ctx fields ⟨df, fns, coll⟩ <;>
        simp [refresh_section_collapse_step, Sec.collapseSet, hc, hl, hcd, hm,
          ht]

theorem C5_collapse_recompute_witness :
    ((refresh_section_collapse_step ctx5 [] sec5w).collapsed = true ↔
      ((∀ e, sec5w.df.collapsible_depends_on = some e →
        truthy (evaluate_depends_on_value ctx5 e) = false) ∧
        has_missing_mandatory ctx5 [] sec5w = false)) ∧
    (has_missing_mandatory ctx5 [] sec5w = true →
      (refresh_section_collapse_step ctx5 [] sec5w).collapsed = false) :=
  C5_collapse_recompute ctx5 [] sec5w rfl rfl

/-- C6: with fields `[A, B, C]` where `B` is not rendered, forward tab
from `A` focuses `C`, backward tab from `C` focuses `A`, forward tab from
`C` (no further eligible field, top-level scope) focuses the primary
action control; and focus eligibility is exactly "write status and
currently rendered". -/
theorem C6_tab_navigation :
    handle_tab tabFields "A" false = .field "C" ∧
    handle_tab tabFields "C" true = .field "A" ∧
    handle_tab tabFields "C" false = .primary ∧
    is_visible tabB = false ∧
    (∀ f : TField,
      is_visible f = true ↔ (f.disp_status = "Write" ∧ f.rendered = true)) := by
  refine ⟨by decide, by decide, by decide, by decide, ?_⟩
  intro f
  simp [is_visible]

/-- C7: `evaluate_depends_on_value` dispatches on the expression's shape
in the source's precedence order — boolean literal as-is; callable applied
to the document; `eval:` strings through the expression engine over
doc/parent (with the `is_submittable` carve-out folded in); `fn:` strings
through the form's trigger handler only when a form exists; any other
string as a fieldname lookup where arrays are truthy iff non-empty and a
missing fieldname is falsy. -/
theorem C7_evaluate_dispatch (ctx : EvalCtx) (d : Doc)
    (hdoc : ctx.doc = some d) :
    (∀ b, evaluate_depends_on_value ctx (.boolLit b) = some (.bool b)) ∧
    (∀ g, evaluate_depends_on_value ctx (.func g) = some (g d)) ∧
    (∀ s v, strLead s "eval:" = true →
      ctx.uEval (strFrom s 5) d (evalParent ctx) = .ok v →
      evaluate_depends_on_value ctx (.str s) =
        some (if parentIstable (evalParent ctx) &&
                strContains s "is_submittable"
              then .bool true else v)) ∧
    (∀ s, strLead s "eval:" = false → strLead s "fn:" = true →
      ctx.frmDoc.isSome = true →
      evaluate_depends_on_value ctx (.str s) =
        some (ctx.trigger (strFrom s 3))) ∧
    (∀ s, strLead s "eval:" = false →
      (strLead s "fn:" && ctx.frmDoc.isSome) = false →
      evaluate_depends_on_value ctx (.str s) =
        some (match Doc.get d s with
              | .arr xs => .bool (!xs.isEmpty)
              | v => .bool v.toBool)) ∧
    (∀ s, strLead s "eval:" = false →
      (strLead s "fn:" && ctx.frmDoc.isSome) = false →
      Doc.get d s = .undefined →
      evaluate_depends_on_value ctx (.str s) = some (.bool false)) := by
  refine ⟨?_, ?_, ?_, ?_, ?_, ?_⟩
  · intro b; simp [evaluate_depends_on_value, hdoc]
  · intro g; simp [evaluate_depends_on_value, hdoc]
  · intro s v h1 h2
    simp [evaluate_depends_on_value, hdoc, h1, h2]
    split <;> simp
  · intro s h1 h2 h3
    simp [evaluate_depends_on_value, hdoc, h1, h2, h3]
  · intro s h1 h2
    simp only [evaluate_depends_on_value, hdoc, h1, h2, Bool.false_eq_true,
      if_false]
    cases d.get s <;> rfl
  · intro s h1 h2 h3
    simp [evaluate_depends_on_value, hdoc, h1, h2, h3, JVal.toBool]

theorem C7_evaluate_dispatch_witness :
    evaluate_depends_on_value ctx7 (.boolLit true) = some (.bool true) ∧
    evaluate_depends_on_value ctx7 (.str "status") = some (.bool true) ∧
    evaluate_depends_on_value ctx7 (.str "missing_field") =
      some (.bool false) := by
  refine ⟨(C7_evaluate_dispatch ctx7 [("status", .str "Open")] rfl).1 true,
    ?_, ?_⟩
  · have h := (C7_evaluate_dispatch ctx7 [("status", .str "Open")]
      rfl).2.2.2.2.1 "status" (by decide) (by decide)
    rw [h]; rfl
  · exact (C7_evaluate_dispatch ctx7 [("status", .str "Open")]
      rfl).2.2.2.2.2 "missing_field" (by decide) (by decide) rfl

/-- C8 counterexample: the document being evaluated is a child-table row
(`istable` truthy) and the `eval:` expression mentions the submittable
helper, yet the outcome is not forced — the source keys the carve-out on
`parent.istable` (the form's document when a form exists), which is falsy
here, so the expression's own falsy result stands. -/
theorem C8_counterexample :
    (Doc.get doc8 "istable").toBool = true ∧
    strLead "eval: doc.is_submittable" "eval:" = true ∧
    strContains "eval: doc.is_submittable" "is_submittable" = true ∧
    evaluate_depends_on_value ctx8 (.str "eval: doc.is_submittable") =
      some (.bool false) ∧
    truthy (evaluate_depends_on_value ctx8
      (.str "eval: doc.is_submittable")) = false :=
  ⟨rfl, rfl, rfl, rfl, rfl⟩

/-- C8 (amended): the carve-out keys on the `parent` binding — the form's
document when a form context exists, else the layout's own document: when
that document's `istable` is truthy, an `eval:` expression mentioning
`is_submittable` whose engine call succeeds has its outcome forced to
`true`, overriding the evaluated value. -/
theorem C8_submittable_carveout (ctx : EvalCtx) (d : Doc) (s : String)
    (v : JVal)
    (hdoc : ctx.doc = some d)
    (hpre : strLead s "eval:" = true)
    (hsub : strContains s "is_submittable" = true)
    (hist : parentIstable (evalParent ctx) = true)
    (hok : ctx.uEval (strFrom s 5) d (evalParent ctx) = .ok v) :
    evaluate_depends_on_value ctx (.str s) = some (.bool true) := by
  simp [evaluate_depends_on_value, hdoc, hpre, hok, hist, hsub]

theorem C8_submittable_carveout_witness :
    evaluate_depends_on_value ctx8w (.str "eval: doc.is_submittable") =
      some (.bool true) :=
  C8_submittable_carveout ctx8w doc8 "eval: doc.is_submittable"
    (.bool false) rfl rfl rfl rfl rfl

/-- C10: `has_missing_mandatory` reports a missing mandatory field exactly
when some direct field of the section has `reqd` set and its document
value is JS-loosely equal to `null` (i.e. null or undefined); an empty
string, the number 0 and `false` are not nullish, so such values count as
filled. -/
theorem C10_missing_mandatory_nullish (ctx : EvalCtx) (fields : List DF)
    (s : Sec) :
    (has_missing_mandatory ctx fields s = true ↔
      ∃ fn ∈ s.fieldnames, ∃ g,
        List.find? (fun x => x.fieldname == fn) fields = some g ∧
        g.reqd = true ∧ (ctxDocGet ctx fn).isNullish = true) ∧
    JVal.isNullish (.str "") = false ∧
    JVal.isNullish (.num 0) = false ∧
    JVal.isNullish (.bool false) = false ∧
    JVal.isNullish .null = true ∧
    JVal.isNullish .undefined = true := by
  refine ⟨?_, rfl, rfl, rfl, rfl, rfl⟩
  rw [has_missing_mandatory, List.any_eq_true]
  constructor
  · rintro ⟨fn, hmem, hp⟩
    refine ⟨fn, hmem, ?_⟩
    cases hfind : List.find? (fun x => x.fieldname == fn) fields with
    | none => rw [hfind] at hp; cases hp
    | some g =>
      rw [hfind] at hp
      exact ⟨g, rfl, (Bool.and_eq_true _ _).mp hp⟩
  · rintro ⟨fn, hmem, g, hfind, hreqd, hnull⟩
    exact ⟨fn, hmem, by rw [hfind]; simp [hreqd, hnull]⟩

theorem fd_flushCol (st : RState) : firstDf (flushCol st) = firstDf st := by
  obtain ⟨done, sec, col⟩ := st
  cases col with
  | none => rfl
  | some c =>
    cases sec with
    | none => rfl
    | some sc => obtain ⟨sd, cols⟩ := sc; cases done <;> rfl

theorem closeSec_sec (st : RState) : (closeSec st).sec = none := by
  obtain ⟨done, sec, col⟩ := st
  cases col with
  | none => cases sec with | none => rfl | some sc => rfl
  | some c =>
    cases sec with
    | none => rfl
    | some sc => obtain ⟨sd, cols⟩ := sc; rfl

theorem fd_closeSec (st : RState) (x : Option DF) (h : firstDf st = some x) :
    firstDf (closeSec st) = some x := by
  rw [← fd_flushCol] at h
  unfold closeSec
  rcases hst : flushCol st with ⟨done, sec, col⟩
  rw [hst] at h
  cases sec with
  | none => simpa using h
  | some sc =>
    obtain ⟨sd, cols⟩ := sc
    cases done with
    | nil => simp only [firstDf] at h ⊢; simpa using h
    | cons s rest => simp only [firstDf] at h ⊢; simpa using h

theorem closeSec_done_head (st : RState) (x : Option DF)
    (h : firstDf st = some x) :
    ∃ s rest, (closeSec st).done = s :: rest ∧ s.df = x := by
  have h2 := fd_closeSec st x h
  have h3 := closeSec_sec st
  rcases hst : closeSec st with ⟨done, sec, col⟩
  rw [hst] at h2 h3
  subst h3
  cases done with
  | nil => simp [firstDf] at h2
  | cons s rest =>
    simp only [firstDf] at h2
    exact ⟨s, rest, rfl, by simpa using h2⟩

theorem fd_openSec (d : Option DF) (st : RState) (x : Option DF)
    (h : firstDf st = some x) : firstDf (openSec d st) = some x := by
  obtain ⟨s, rest, hdone, hdf⟩ := closeSec_done_head st x h
  unfold openSec
  rcases hst : closeSec st with ⟨done, sec, col⟩
  rw [hst] at hdone
  simp only at hdone
  subst hdone
  simp [firstDf, hdf]

theorem fd_stepField (df : DF) (st : RState) (x : Option DF)
    (h : firstDf st = some x) : firstDf (stepField df st) = some x := by
  unfold stepField ensureSec
  rcases hsec : st.sec with _ | sc
  · have h2 := fd_openSec none st x h
    rcases hst : openSec none st with ⟨done, sec, col⟩
    rw [hst] at h2
    have hcol : col = none := by
      have : (openSec none st).col = none := rfl
      rw [hst] at this; exact this
    subst hcol
    cases sec with
    | none => simpa [firstDf] using h2
    | some sc2 => obtain ⟨sd, cols⟩ := sc2; cases done <;> simpa [firstDf] using h2
  · rcases hcol : st.col with _ | c
    · rcases st with ⟨done, sec, col⟩
      simp only at hsec hcol
      subst hsec; subst hcol
      cases done <;> simpa [firstDf] using h
    · obtain ⟨cd, fs⟩ := c
      rcases st with ⟨done, sec, col⟩
      simp only at hsec hcol
      subst hsec; subst hcol
      cases done <;> simpa [firstDf] using h

theorem fd_openCol (d : Option DF) (st st' : RState) (x : Option DF)
    (h : openCol d st = some st') (hf : firstDf st = some x) :
    firstDf st' = some x := by
  unfold openCol at h
  rcases hsec : st.sec with _ | sc
  · rw [hsec] at h; cases h
  · rw [hsec] at h
    simp only [Option.some_inj] at h
    subst h
    have h2 : firstDf (flushCol st) = some x := by rw [fd_flushCol]; exact hf
    rcases hst : flushCol st with ⟨done, sec, col⟩
    rw [hst] at h2
    cases sec with
    | none => cases done <;> simp_all [firstDf]
    | some sc2 => obtain ⟨sd, cols⟩ := sc2; cases done <;> simpa [firstDf] using h2

theorem fd_buildStep (st st' : RState) (df : DF) (x : Option DF)
    (h : buildStep st df = some st') (hf : firstDf st = some x) :
    firstDf st' = some x := by
  unfold buildStep at h
  by_cases h1 : (df.fieldtype == "Fold") = true
  · rw [if_pos h1] at h
    simp only [Option.some_inj] at h
    subst h
    exact fd_closeSec st x hf
  · rw [if_neg h1] at h
    by_cases h2 : (df.fieldtype == "Section Break") = true
    · rw [if_pos h2] at h
      simp only [Option.some_inj] at h
      subst h
      exact fd_openSec (some df) st x hf
    · rw [if_neg h2] at h
      by_cases h3 : (df.fieldtype == "Column Break") = true
      · rw [if_pos h3] at h
        exact fd_openCol (some df) st st' x h hf
      · rw [if_neg h3] at h
        simp only [Option.some_inj] at h
        subst h
        exact fd_stepField df st x hf

theorem fd_buildGo (l : List DF) :
    ∀ st st' : RState, ∀ x : Option DF, buildGo st l = some st' →
      firstDf st = some x → firstDf st' = some x := by
  induction l with
  | nil =>
    intro st st' x h hf
    simp only [buildGo, Option.some_inj] at h
    subst h
    exact hf
  | cons df rest ih =>
    intro st st' x h hf
    unfold buildGo at h
    cases hs : buildStep st df with
    | none => rw [hs] at h; cases h
    | some st1 =>
      rw [hs] at h
      exact ih st1 st' x h (fd_buildStep st st1 df x hs hf)

/-- C3 part 2, standalone: the first section of a successful render is
synthesized (df-less) exactly when `no_opening_section` holds on the
input. -/
theorem render_first_section (fields : List DF) (out : List BSection)
    (h : Layout.render fields = some out) :
    ((∃ s rest, out = s :: rest ∧ s.df = none) ↔
      no_opening_section fields = true) := by
  unfold Layout.render at h
  cases hb : buildGo (initState fields) fields with
  | none => rw [hb] at h; cases h
  | some st' =>
    rw [hb] at h
    simp only [Option.map_some', Option.some_inj] at h
    subst h
    cases hno : no_opening_section fields with
    | true =>
      have hinit : firstDf (initState fields) = some none := by
        unfold initState
        rw [hno]
        rfl
      have hf := fd_buildGo fields _ st' none hb hinit
      obtain ⟨s, rest, hdone, hdf⟩ := closeSec_done_head st' none hf
      exact ⟨fun _ => rfl, fun _ => ⟨s, rest, hdone, hdf⟩⟩
    | false =>
      cases fields with
      | nil => simp [no_opening_section] at hno
      | cons f rest =>
        have hsb : f.fieldtype = "Section Break" := by
          simpa [no_opening_section] using hno
        have hinit : initState (f :: rest) =
            ⟨[], none, none⟩ := by
          unfold initState
          rw [hno]
          rfl
        have hstep : buildStep (⟨[], none, none⟩ : RState) f =
            some ⟨[], some (some f, []), none⟩ := by
          unfold buildStep
          rw [hsb]
          rfl
        have hgo : buildGo (⟨[], some (some f, []), none⟩ : RState) rest =
            some st' := by
          unfold buildGo at hb
          rw [hinit, hstep] at hb
          exact hb
        have hf := fd_buildGo rest _ st' (some f) hgo rfl
        obtain ⟨s, rest2, hdone, hdf⟩ := closeSec_done_head st' (some f) hf
        refine ⟨?_, fun hff => nomatch hff⟩
        rintro ⟨s2, rest3, hdone2, hdf2⟩
        rw [hdone] at hdone2
        have hse : s = s2 := (List.cons_eq_cons.mp hdone2).1
        rw [← hse, hdf] at hdf2
        exact Option.noConfusion hdf2

theorem ColOk_nil : ColOk [] := by
  intro c hc
  cases hc

theorem ColOk_append (cols : List BColumn) (x : BColumn)
    (h : ColOk cols) (hx : x.df = none → x.fields ≠ [] ∧ cols = []) :
    ColOk (cols ++ [x]) := by
  intro c hc hdf
  rcases List.mem_append.mp hc with hcc | hcx
  · obtain ⟨hh, hf⟩ := h c hcc hdf
    refine ⟨?_, hf⟩
    cases cols with
    | nil => cases hcc
    | cons a as => simpa using hh
  · have hcx2 : c = x := by simpa using hcx
    subst hcx2
    obtain ⟨hf, hnil⟩ := hx hdf
    subst hnil
    exact ⟨rfl, hf⟩

theorem inv_closeSec (st : RState) (h : InvSt st) : InvSt (closeSec st) := by
  obtain ⟨done, sec, col⟩ := st
  obtain ⟨h1, h2, h3, h4⟩ := h
  cases col with
  | none =>
    cases sec with
    | none => exact ⟨h1, h2, h3, h4⟩
    | some sc =>
      obtain ⟨sd, cols⟩ := sc
      rw [show closeSec ⟨done, some (sd, cols), none⟩ =
        ⟨done ++ [⟨sd, cols⟩], none, none⟩ from rfl]
      refine ⟨?_, ?_, ?_, ?_⟩
      · intro s hs
        rcases List.mem_append.mp hs with hs1 | hs2
        · exact h1 s hs1
        · have hseq : s = ⟨sd, cols⟩ := by simpa using hs2
          subst hseq
          exact h2 sd cols rfl
      · intro sd2 cols2 hc
        exact nomatch hc
      · intro cd2 fs2 hc
        exact nomatch hc
      · intro _ sd2 cols2 hc
        exact nomatch hc
  | some c =>
    obtain ⟨cd, fs⟩ := c
    cases sec with
    | none =>
      rw [show closeSec ⟨done, none, some (cd, fs)⟩ =
        ⟨done, none, none⟩ from rfl]
      refine ⟨h1, ?_, ?_, ?_⟩
      · intro sd2 cols2 hc
        exact nomatch hc
      · intro cd2 fs2 hc
        exact nomatch hc
      · intro _ sd2 cols2 hc
        exact nomatch hc
    | some sc =>
      obtain ⟨sd, cols⟩ := sc
      rw [show closeSec ⟨done, some (sd, cols), some (cd, fs)⟩ =
        ⟨done ++ [⟨sd, cols ++ [⟨cd, fs⟩]⟩], none, none⟩ from rfl]
      refine ⟨?_, ?_, ?_, ?_⟩
      · intro s hs
        rcases List.mem_append.mp hs with hs1 | hs2
        · exact h1 s hs1
        · have hseq : s = ⟨sd, cols ++ [⟨cd, fs⟩]⟩ := by simpa using hs2
          subst hseq
          refine ColOk_append cols ⟨cd, fs⟩ (h2 sd cols rfl) ?_
          intro hcd
          obtain ⟨hf, hsec⟩ := h3 cd fs rfl hcd
          exact ⟨hf, hsec sd cols rfl⟩
      · intro sd2 cols2 hc
        exact nomatch hc
      · intro cd2 fs2 hc
        exact nomatch hc
      · intro _ sd2 cols2 hc
        exact nomatch hc

theorem closeSec_col (st : RState) : (closeSec st).col = none := by
  obtain ⟨done, sec, col⟩ := st
  cases col with
  | none => cases sec with | none => rfl | some sc => obtain ⟨sd, cols⟩ := sc; rfl
  | some c =>
    obtain ⟨cd, fs⟩ := c
    cases sec with
    | none => rfl
    | some sc => obtain ⟨sd, cols⟩ := sc; rfl

theorem inv_openSec (d : Option DF) (st : RState) (h : InvSt st) :
    InvSt (openSec d st) := by
  have hin := inv_closeSec st h
  unfold openSec
  rcases hst : closeSec st with ⟨done2, sec2, col2⟩
  rw [hst] at hin
  obtain ⟨g1, g2, g3, g4⟩ := hin
  refine ⟨g1, ?_, ?_, ?_⟩
  · intro sd cols hc
    simp only [Option.some_inj, Prod.mk.injEq] at hc
    rw [← hc.2]
    exact ColOk_nil
  · intro cd fs hc
    exact nomatch hc
  · intro _ sd cols hc
    simp only [Option.some_inj, Prod.mk.injEq] at hc
    exact hc.2.symm

theorem inv_openCol (df : DF) (st st' : RState)
    (h : openCol (some df) st = some st') (hinv : InvSt st) : InvSt st' := by
  obtain ⟨done, sec, col⟩ := st
  obtain ⟨h1, h2, h3, h4⟩ := hinv
  cases sec with
  | none => exact nomatch h
  | some sc =>
    obtain ⟨sd, cols⟩ := sc
    cases col with
    | none =>
      rw [show openCol (some df) ⟨done, some (sd, cols), none⟩ =
        some ⟨done, some (sd, cols), some (some df, [])⟩ from rfl] at h
      simp only [Option.some_inj] at h
      subst h
      refine ⟨h1, h2, ?_, ?_⟩
      · intro cd2 fs2 hc hcd
        simp only [Option.some_inj, Prod.mk.injEq] at hc
        rw [← hc.1] at hcd
        exact nomatch hcd
      · intro hc
        exact nomatch hc
    | some c =>
      obtain ⟨cd, fs⟩ := c
      rw [show openCol (some df) ⟨done, some (sd, cols), some (cd, fs)⟩ =
        some ⟨done, some (sd, cols ++ [⟨cd, fs⟩]), some (some df, [])⟩
        from rfl] at h
      simp only [Option.some_inj] at h
      subst h
      refine ⟨h1, ?_, ?_, ?_⟩
      · intro sd2 cols2 hc
        simp only [Option.some_inj, Prod.mk.injEq] at hc
        rw [← hc.2]
        refine ColOk_append cols ⟨cd, fs⟩ (h2 sd cols rfl) ?_
        intro hcd
        obtain ⟨hf, hsec⟩ := h3 cd fs rfl hcd
        exact ⟨hf, hsec sd cols rfl⟩
      · intro cd2 fs2 hc hcd
        simp only [Option.some_inj, Prod.mk.injEq] at hc
        rw [← hc.1] at hcd
        exact nomatch hcd
      · intro hc
        exact nomatch hc

theorem inv_stepField (df : DF) (st : RState) (hinv : InvSt st) :
    InvSt (stepField df st) := by
  obtain ⟨done, sec, col⟩ := st
  cases sec with
  | none =>
    -- ensureSec opens a synthesized section: compute it explicitly
    have hens : ensureSec ⟨done, none, col⟩ =
        ⟨(flushCol ⟨done, none, col⟩).done, some (none, []), none⟩ := by
      cases col with
      | none => rfl
      | some c => obtain ⟨cd, fs⟩ := c; rfl
    have hfl : (flushCol ⟨done, none, col⟩).done = done := by
      cases col with
      | none => rfl
      | some c => obtain ⟨cd, fs⟩ := c; rfl
    unfold stepField
    rw [hens, hfl]
    obtain ⟨h1, h2, h3, h4⟩ := hinv
    refine ⟨h1, ?_, ?_, ?_⟩
    · intro sd2 cols2 hc
      simp only [Option.some_inj, Prod.mk.injEq] at hc
      rw [← hc.2]
      exact ColOk_nil
    · intro cd2 fs2 hc hcd
      simp only [Option.some_inj, Prod.mk.injEq] at hc
      refine ⟨by rw [← hc.2]; simp, ?_⟩
      intro sd3 cols3 hc3
      simp only [Option.some_inj, Prod.mk.injEq] at hc3
      exact hc3.2.symm
    · intro hc
      exact nomatch hc
  | some sc =>
    obtain ⟨sd, cols⟩ := sc
    obtain ⟨h1, h2, h3, h4⟩ := hinv
    cases col with
    | none =>
      rw [show stepField df ⟨done, some (sd, cols), none⟩ =
        ⟨done, some (sd, cols), some (none, [df])⟩ from rfl]
      refine ⟨h1, h2, ?_, ?_⟩
      · intro cd2 fs2 hc hcd
        simp only [Option.some_inj, Prod.mk.injEq] at hc
        refine ⟨by rw [← hc.2]; simp, ?_⟩
        intro sd3 cols3 hc3
        simp only [Option.some_inj, Prod.mk.injEq] at hc3
        rw [← hc3.2]
        exact h4 rfl sd cols rfl
      · intro hc
        exact nomatch hc
    | some c =>
      obtain ⟨cd, fs⟩ := c
      rw [show stepField df ⟨done, some (sd, cols), some (cd, fs)⟩ =
        ⟨done, some (sd, cols), some (cd, fs ++ [df])⟩ from rfl]
      refine ⟨h1, h2, ?_, ?_⟩
      · intro cd2 fs2 hc hcd
        simp only [Option.some_inj, Prod.mk.injEq] at hc
        rw [← hc.1] at hcd
        subst hcd
        obtain ⟨hf, hsec⟩ := h3 none fs rfl rfl
        refine ⟨by rw [← hc.2]; simp, ?_⟩
        intro sd3 cols3 hc3
        simp only [Option.some_inj, Prod.mk.injEq] at hc3
        rw [← hc3.2]
        exact hsec sd cols rfl
      · intro hc
        exact nomatch hc

theorem inv_buildStep (st st' : RState) (df : DF)
    (h : buildStep st df = some st') (hinv : InvSt st) : InvSt st' := by
  unfold buildStep at h
  by_cases h1 : (df.fieldtype == "Fold") = true
  · rw [if_pos h1] at h
    simp only [Option.some_inj] at h
    subst h
    exact inv_closeSec st hinv
  · rw [if_neg h1] at h
    by_cases h2 : (df.fieldtype == "Section Break") = true
    · rw [if_pos h2] at h
      simp only [Option.some_inj] at h
      subst h
      exact inv_openSec (some df) st hinv
    · rw [if_neg h2] at h
      by_cases h3 : (df.fieldtype == "Column Break") = true
      · rw [if_pos h3] at h
        exact inv_openCol df st st' h hinv
      · rw [if_neg h3] at h
        simp only [Option.some_inj] at h
        subst h
        exact inv_stepField df st hinv

theorem inv_buildGo (l : List DF) :
    ∀ st st' : RState, buildGo st l = some st' → InvSt st → InvSt st' := by
  induction l with
  | nil =>
    intro st st' h hinv
    simp only [buildGo, Option.some_inj] at h
    subst h
    exact hinv
  | cons df rest ih =>
    intro st st' h hinv
    unfold buildGo at h
    cases hs : buildStep st df with
    | none => rw [hs] at h; cases h
    | some st1 =>
      rw [hs] at h
      exact ih st1 st' h (inv_buildStep st st1 df hs hinv)

theorem inv_initState (fields : List DF) : InvSt (initState fields) := by
  have hbase : InvSt ⟨[], none, none⟩ := by
    refine ⟨?_, ?_, ?_, ?_⟩
    · intro s hs; cases hs
    · intro sd cols hc; exact nomatch hc
    · intro cd fs hc; exact nomatch hc
    · intro _ sd cols hc; exact nomatch hc
  unfold initState
  split
  · exact inv_openSec none ⟨[], none, none⟩ hbase
  · exact hbase

/-- C3 part 3, standalone: in any successful render every synthesized
(df-less) column is the first column of its section and holds at least one
control. -/
theorem render_columns (fields : List DF) (out : List BSection)
    (h : Layout.render fields = some out) :
    ∀ s ∈ out, ∀ c ∈ s.columns, c.df = none →
      s.columns.head? = some c ∧ c.fields ≠ [] := by
  unfold Layout.render at h
  cases hb : buildGo (initState fields) fields with
  | none => rw [hb] at h; cases h
  | some st' =>
    rw [hb] at h
    simp only [Option.map_some', Option.some_inj] at h
    subst h
    have hinv := inv_buildGo fields _ st' hb (inv_initState fields)
    have hfin := inv_closeSec st' hinv
    intro s hs
    exact hfin.1 s hs

/-- C3: rendering `[A, section-break, B, column-break, C]` yields a
synthesized leading section holding `A` in a synthesized first column and
the explicit section with two columns holding `B` and `C`; in general the
first section of a successful render is synthesized exactly when
`no_opening_section` holds (first descriptor not a section-break, or empty
list), and a synthesized column is always its section's first column,
created by a field arriving before any column-break (hence non-empty). -/
theorem C3_build_tree :
    Layout.render exFields = some exOut ∧
    (∀ fields out, Layout.render fields = some out →
      ((∃ s rest, out = s :: rest ∧ s.df = none) ↔
        no_opening_section fields = true)) ∧
    (∀ fields out, Layout.render fields = some out →
      ∀ s ∈ out, ∀ c ∈ s.columns, c.df = none →
        s.columns.head? = some c ∧ c.fields ≠ []) :=
  ⟨rfl, render_first_section, render_columns⟩

theorem C3_build_tree_witness :
    ((∃ s rest, exOut = s :: rest ∧ s.df = none) ↔
      no_opening_section exFields = true) ∧
    (∀ s ∈ exOut, ∀ c ∈ s.columns, c.df = none →
      s.columns.head? = some c ∧ c.fields ≠ []) :=
  ⟨C3_build_tree.2.1 exFields exOut C3_build_tree.1,
   C3_build_tree.2.2 exFields exOut C3_build_tree.1⟩

end FormLayout
